import Mathlib

/-!
Verification development for the file-timeliner program
(`src/file_timeliner.py`).

The core pipeline is embedded shallowly:

* the filesystem seen by the traverser is a finite tree (`FSTree`) whose
  leaves carry the data the program reads from an entry: its path string,
  its suffix, and the result of `lstat` (`none` models `lstat` raising);
* `search_files`, `get_stat`, `sort_key`, `sort_argument_to_header`,
  `write_to_csv` and `confirm_overwrite` are translated from the source,
  keeping their names;
* timestamps are modelled as integer epoch seconds (the program carries
  float epoch seconds; no claim depends on sub-second precision), and
  `datetime.fromtimestamp(value, UTC).strftime("%Y-%m-%d %H:%M:%S")` is
  embedded as `epochToString`, a proleptic-Gregorian UTC conversion
  (faithful on the year range 1..9999 that `fromtimestamp` accepts);
* effects (file contents written, console messages, log records, the
  Python return value) are made explicit as fields of result structures;
* Python's stable `list.sort(key=...)` is modelled by Mathlib's
  `List.insertionSort` over the key order: a stable sort is determined
  up to extensionality by the key order, so any stable sort models it.
-/

/-! ## Data model -/

/-- A timestamp value as it appears inside a record: either a raw epoch
value (a Python float, modelled as integer seconds) or a formatted
human-readable string. -/
inductive TimeVal where
  | raw (v : Int)
  | formatted (s : String)
deriving DecidableEq, Repr

/-- One element of the five-element metadata list built by `get_stat`:
the path (a `Path` object in the source), the size (an `int`), or one of
the three timestamps. -/
inductive RecField where
  | pathF (p : String)
  | sizeF (n : Nat)
  | timeF (t : TimeVal)
deriving DecidableEq, Repr

/-- The fields of the `os.stat_result` that `get_stat` reads.
`st_birthtime` is `none` on platforms that do not provide it, in which
case the source's `getattr(stat, "st_birthtime", stat.st_ctime)` falls
back to `st_ctime`. -/
structure StatData where
  st_size : Nat
  st_birthtime : Option Int
  st_ctime : Int
  st_mtime : Int
  st_atime : Int
deriving DecidableEq, Repr

/-- A directory entry for which `entry.is_file()` holds, as seen by the
program: its path string (what `str(entry)` produces), its `suffix`
(pathlib's extension including the leading dot, empty when there is
none), and the outcome of `lstat` on it (`none` models `lstat` raising,
e.g. the entry vanished or permission was denied). -/
structure FileNode where
  path : String
  suffix : String
  stat : Option StatData
deriving DecidableEq, Repr

/-- A finite filesystem tree: what `iterdir` enumerates under a
directory.  `file` is an entry with `is_file()` true, `dir` one with
`is_dir()` true (holding its own `iterdir` listing), and `otherEntry`
an entry that is neither (e.g. a broken symlink), which the traversal
loop skips. -/
inductive FSTree where
  | file (node : FileNode)
  | dir (children : List FSTree)
  | otherEntry

/-! ## UTC timestamp formatting

`datetime.fromtimestamp(t, UTC).strftime("%Y-%m-%d %H:%M:%S")` on an
epoch-seconds value, via the standard civil-from-days conversion on the
proleptic Gregorian calendar. -/

/-- Two-digit zero-padded decimal rendering (strftime `%m`, `%d`, `%H`,
`%M`, `%S`). -/
def pad2 (n : Nat) : List Char := [Nat.digitChar (n / 10 % 10), Nat.digitChar (n % 10)]

/-- Four-digit zero-padded decimal rendering (strftime `%Y` on the year
range 1..9999 supported by `datetime`). -/
def pad4 (n : Nat) : List Char :=
  [Nat.digitChar (n / 1000 % 10), Nat.digitChar (n / 100 % 10),
   Nat.digitChar (n / 10 % 10), Nat.digitChar (n % 10)]

/-- Civil date (year, month, day) of a day count relative to 1970-01-01
on the proleptic Gregorian calendar. -/
def civilFromDays (z0 : Int) : Int × Nat × Nat :=
  let z := z0 + 719468
  let era : Int := Int.ediv z 146097
  let doe : Nat := (Int.emod z 146097).toNat
  let yoe : Nat := (doe - doe / 1460 + doe / 36524 - doe / 146096) / 365
  let doy : Nat := doe - (365 * yoe + yoe / 4 - yoe / 100)
  let mp : Nat := (5 * doy + 2) / 153
  let d : Nat := doy - (153 * mp + 2) / 5 + 1
  let m : Nat := if mp < 10 then mp + 3 else mp - 9
  let y : Int := era * 400 + yoe + (if m ≤ 2 then 1 else 0)
  (y, m, d)

/-- The `YYYY-MM-DD HH:MM:SS` UTC rendering of an epoch-seconds value:
the embedding of `datetime.fromtimestamp(t, UTC).strftime("%Y-%m-%d
%H:%M:%S")`. -/
def epochToString (t : Int) : String :=
  let days := Int.ediv t 86400
  let secs := (Int.emod t 86400).toNat
  let c := civilFromDays days
  String.mk (pad4 c.1.toNat ++ '-' :: pad2 c.2.1 ++ '-' :: pad2 c.2.2 ++
    ' ' :: pad2 (secs / 3600) ++ ':' :: pad2 (secs % 3600 / 60) ++ ':' :: pad2 (secs % 60))

/-! ## StatExtractor: `get_stat` -/

/-- The observable outcome of one `get_stat` call: the returned list
(`[]` is the failure sentinel) and the log records it emitted via
`logging.exception`. -/
structure GetStatResult where
  record : List RecField
  logMessages : List String
deriving DecidableEq, Repr

/-- The source's `getattr(stat, "st_birthtime", stat.st_ctime)`. -/
def birthOrCtime (st : StatData) : Int :=
  match st.st_birthtime with
  | some b => b
  | none => st.st_ctime

/-- Embedding of `get_stat` (src/file_timeliner.py lines 22-56): on an
`lstat` failure it logs the path and returns the empty-list sentinel;
otherwise it builds the five-element record, formatting all three
timestamps when `human_readable` is set and keeping all three raw
otherwise. -/
def get_stat (filepath : FileNode) (human_readable : Bool) : GetStatResult :=
  match filepath.stat with
  | none =>
    { record := []
      logMessages := ["Error getting stat information from " ++ filepath.path] }
  | some st =>
    if human_readable then
      { record :=
          [RecField.pathF filepath.path, RecField.sizeF st.st_size,
           RecField.timeF (TimeVal.formatted (epochToString (birthOrCtime st))),
           RecField.timeF (TimeVal.formatted (epochToString st.st_mtime)),
           RecField.timeF (TimeVal.formatted (epochToString st.st_atime))]
        logMessages := [] }
    else
      { record :=
          [RecField.pathF filepath.path, RecField.sizeF st.st_size,
           RecField.timeF (TimeVal.raw (birthOrCtime st)),
           RecField.timeF (TimeVal.raw st.st_mtime),
           RecField.timeF (TimeVal.raw st.st_atime)]
        logMessages := [] }

/-- A well-formed record: the exact five-field shape `get_stat` returns
on success. -/
def isRecord : List RecField → Bool
  | [RecField.pathF _, RecField.sizeF _, RecField.timeF _, RecField.timeF _, RecField.timeF _] => true
  | _ => false

/-! ## BoundedTraverser: `search_files` -/

/-- The early-return guard of `search_files`:
`max_depth is not None and max_depth < 0 and max_depth != -1`. -/
def stopGuard : Option Int → Bool
  | none => false
  | some d => d < 0 && d != -1

/-- The depth passed to the recursive call:
`None if max_depth in [None, -1] else max_depth - 1`. -/
def nextDepth : Option Int → Option Int
  | none => none
  | some d => if d = -1 then none else some (d - 1)

/-- The file test of the traversal loop:
`filter_extension is None or entry.suffix == filter_extension`. -/
def suffixMatches (filt : Option String) (fn : FileNode) : Bool :=
  match filt with
  | none => true
  | some f => fn.suffix == f

/-- Embedding of `search_files` (src/file_timeliner.py lines 187-209).
`entries` is the `iterdir` listing of the directory being searched; the
yielded sequence of the generator becomes a list.  The guard is
re-checked on the tail of the entry list, which cannot change its value
because `max_depth` is unchanged there. -/
def search_files (entries : List FSTree) (max_depth : Option Int)
    (filter_extension : Option String) : List FileNode :=
  if stopGuard max_depth then []
  else
    match entries with
    | [] => []
    | FSTree.file fn :: es =>
        (if suffixMatches filter_extension fn then [fn] else []) ++
          search_files es max_depth filter_extension
    | FSTree.dir cs :: es =>
        search_files cs (nextDepth max_depth) filter_extension ++
          search_files es max_depth filter_extension
    | FSTree.otherEntry :: es => search_files es max_depth filter_extension
termination_by sizeOf entries

/-! ## MetadataCollector: the collection phase of `main` -/

/-- The collection phase of `main` (src/file_timeliner.py lines
299-303): a plain list comprehension mapping `get_stat` over the paths
the traverser yields.  Nothing is filtered out. -/
def collect_metadata (entries : List FSTree) (max_depth : Option Int)
    (filter_extension : Option String) (human_readable : Bool) : List (List RecField) :=
  (search_files entries max_depth filter_extension).map
    (fun fn => (get_stat fn human_readable).record)

/-! ## RecordSorter: `sort_argument_to_header`, `sort_key` and the
`list.sort` call of `main` -/

/-- The CSV header list built in `main` (src/file_timeliner.py lines
291-297). -/
def csvHeaders : List String :=
  ["Path", "Size", "Created Time", "Modified Time", "Access Time"]

/-- Embedding of `sort_argument_to_header` (lines 140-157): the label
lookup; `none` models the `ValueError` raised on any other argument. -/
def sort_argument_to_header (arg : String) : Option String :=
  if arg = "ctime" then some "Created Time"
  else if arg = "mtime" then some "Modified Time"
  else if arg = "atime" then some "Access Time"
  else none

/-- `headers.index(sort_header)` from `main`. -/
def headerIndex (h : String) : Nat := csvHeaders.indexOf h

/-- What `sort_key` returns: a string (either the strftime rendering of
a float value, or a value that already was a string, returned as-is),
or some non-string value returned unchanged. -/
inductive KeyVal where
  | str (s : String)
  | nonStr (f : RecField)
deriving DecidableEq, Repr

/-- Embedding of `sort_key` (lines 160-173): index into the record
(`none` models the `IndexError` on an out-of-range index), format the
value if it is a float, return it unchanged otherwise. -/
def sort_key (file_info : List RecField) (sort_index : Nat) : Option KeyVal :=
  match file_info.get? sort_index with
  | none => none
  | some (RecField.timeF (TimeVal.raw v)) => some (KeyVal.str (epochToString v))
  | some (RecField.timeF (TimeVal.formatted s)) => some (KeyVal.str s)
  | some f => some (KeyVal.nonStr f)

/-- The string key `sort_key` produces on a record.  For the records and
indices the program sorts (well-formed records, a timestamp index) the
fallback branch is dead code, which the sorting theorem proves. -/
def keyString (file_info : List RecField) (sort_index : Nat) : String :=
  match sort_key file_info sort_index with
  | some (KeyVal.str s) => s
  | _ => ""

/-- The timestamp stored at a given index of a record, when there is
one. -/
def timeAt (file_info : List RecField) (sort_index : Nat) : Option TimeVal :=
  match file_info.get? sort_index with
  | some (RecField.timeF t) => some t
  | _ => none

/-- The `file_metadata.sort(key=lambda file_info: sort_key(file_info,
sort_index))` call of `main` (line 312): Python's stable sort by the
string keys, modelled by insertion sort over the key order. -/
def sort_records (md : List (List RecField)) (sort_index : Nat) : List (List RecField) :=
  List.insertionSort (fun a b => keyString a sort_index ≤ keyString b sort_index) md

/-! ## TimelineWriter: `write_to_csv`

The `csv.writer(csvfile, delimiter="|")` configuration: pipe delimiter,
double-quote quote character, QUOTE_MINIMAL (a field is quoted exactly
when it contains the delimiter, the quote character, or a line-break
character), quote characters doubled inside quoted fields, `\r\n` row
terminator (the file is opened with `newline=""`, so the terminator
reaches the file unchanged).  Fields are handled as character lists. -/

/-- QUOTE_MINIMAL test: does the field need quoting? -/
def needsQuote (f : List Char) : Bool :=
  f.any (fun c => c = '|' || c = '"' || c = '\r' || c = '\n')

/-- Double every quote character (the writer's escaping rule). -/
def escapeQuotes : List Char → List Char
  | [] => []
  | c :: rest => if c = '"' then '"' :: '"' :: escapeQuotes rest else c :: escapeQuotes rest

/-- One serialized field: quoted and escaped when needed, verbatim
otherwise. -/
def renderField (f : List Char) : List Char :=
  if needsQuote f then '"' :: (escapeQuotes f ++ ['"']) else f

/-- One serialized row: fields joined by the pipe delimiter. -/
def renderRow : List (List Char) → List Char
  | [] => []
  | [f] => renderField f
  | f :: r => renderField f ++ '|' :: renderRow r

/-- The serialized file: each row followed by the `\r\n` terminator. -/
def renderCsv : List (List (List Char)) → List Char
  | [] => []
  | r :: rt => renderRow r ++ '\r' :: '\n' :: renderCsv rt

/-- The textual coercion `str(field)` applied to every record field
before writing (src/file_timeliner.py line 225). -/
def fieldStr : RecField → List Char
  | RecField.pathF p => p.data
  | RecField.sizeF n => (toString n).data
  | RecField.timeF (TimeVal.raw v) => (toString v).data
  | RecField.timeF (TimeVal.formatted s) => s.data

/-- The row written for one record: every field coerced to text. -/
def recordRow (m : List RecField) : List (List Char) := m.map fieldStr

/-- The last path component, pathlib's `Path.name`, used in the console
message of `write_to_csv`. -/
def pathName (p : String) : String :=
  String.mk (p.data.foldl (fun acc c => if c = '/' then [] else acc ++ [c]) [])

/-- The observable outcome of one `write_to_csv` call: the characters
written to the output file, the final value of the local `counter`, the
console messages, and the Python return value.  The source function is
annotated `-> None` and has no return statement, so the returned value
is `none`. -/
structure WriteEffect where
  fileChars : List Char
  counter : Nat
  messages : List String
  returned : Option Nat
deriving DecidableEq, Repr

/-- Embedding of `write_to_csv` (src/file_timeliner.py lines 212-228):
writes the header row, then one row per metadata entry with every field
coerced by `str`, incrementing `counter` once per metadata row; prints
the two console messages; returns `None`. -/
def write_to_csv (output_path : String) (headers : List String)
    (file_metadata : List (List RecField)) : WriteEffect :=
  { fileChars := renderCsv (headers.map String.data :: file_metadata.map recordRow)
    counter := file_metadata.foldl (fun c _ => c + 1) 0
    messages :=
      ["  :gear: Metadata collected on " ++
         toString (file_metadata.foldl (fun c _ => c + 1) 0) ++ " files.",
       "  :gear: Writing metadata to: [yellow]" ++ pathName output_path ++ "[/yellow]"]
    returned := none }

/-! ## Re-parsing the output: splitting on the pipe delimiter,
respecting quoting.  A recursive-descent reader with explicit fuel (the
fuel arguments are bounds on the number of fields in a row and rows in
a file; the wrappers supply bounds derived from the input length, which
the round-trip lemmas prove sufficient). -/

/-- Read the remainder of a quoted field (the opening quote already
consumed): a doubled quote is a literal quote, a lone quote closes the
field. -/
def parseQuoted : List Char → List Char × List Char
  | [] => ([], [])
  | c :: rest =>
    if c = '"' then
      match rest with
      | [] => ([], [])
      | c2 :: rest2 =>
        if c2 = '"' then
          let p := parseQuoted rest2
          ('"' :: p.1, p.2)
        else ([], c2 :: rest2)
    else
      let p := parseQuoted rest
      (c :: p.1, p.2)

/-- Read an unquoted field: everything up to the next delimiter or row
terminator. -/
def parseUnquoted : List Char → List Char × List Char
  | [] => ([], [])
  | c :: rest =>
    if c = '|' ∨ c = '\r' then ([], c :: rest)
    else
      let p := parseUnquoted rest
      (c :: p.1, p.2)

/-- Read one field: quoted when it starts with the quote character,
unquoted otherwise. -/
def parseField (l : List Char) : List Char × List Char :=
  match l with
  | [] => ([], [])
  | c :: rest => if c = '"' then parseQuoted rest else parseUnquoted (c :: rest)

/-- Read one row: fields separated by the delimiter, ended by the row
terminator (or the end of input).  On malformed input the unread tail
is dropped. -/
def parseRecordF : Nat → List Char → List (List Char) × List Char
  | 0, l => ([], l)
  | fuel+1, l =>
    let p := parseField l
    match p.2 with
    | [] => ([p.1], [])
    | c :: rest =>
      if c = '|' then
        let q := parseRecordF fuel rest
        (p.1 :: q.1, q.2)
      else if c = '\r' then
        match rest with
        | [] => ([p.1], [])
        | c2 :: rest2 => if c2 = '\n' then ([p.1], rest2) else ([p.1], c2 :: rest2)
      else ([p.1], [])

/-- Read one row, with enough fuel for any row of the input's length. -/
def parseRecord (l : List Char) : List (List Char) × List Char :=
  parseRecordF (l.length + 1) l

/-- Read all rows. -/
def parseCsvF : Nat → List Char → List (List (List Char))
  | 0, _ => []
  | fuel+1, l =>
    if l.isEmpty then []
    else
      let p := parseRecord l
      p.1 :: parseCsvF fuel p.2

/-- Re-parse a delimited file into its rows of fields, with enough fuel
for any file of the input's length. -/
def parseCsv (l : List Char) : List (List (List Char)) :=
  parseCsvF (l.length + 1) l

/-! ## Overwrite confirmation and the write phase of `main` -/

/-- What the user does at the `Confirm.ask` prompt: answer yes, answer
no (also the prompt's default), or interrupt with Ctrl-C
(`KeyboardInterrupt`). -/
inductive ConfirmAnswer where
  | yes
  | no
  | interrupt
deriving DecidableEq, Repr

/-- Embedding of `confirm_overwrite` (src/file_timeliner.py lines
176-184): when the file exists the prompt's answer decides (an
interrupt is caught and treated as a refusal); when it does not exist
the `try`'s `else` branch returns `True` without prompting. -/
def confirm_overwrite (file_exists : Bool) (answer : ConfirmAnswer) : Bool :=
  if file_exists then
    match answer with
    | ConfirmAnswer.yes => true
    | ConfirmAnswer.no => false
    | ConfirmAnswer.interrupt => false
  else
    true

/-- The observable outcome of the write phase of `main`: the exit code
if the run exited, the output file's content afterwards, whether
`write_to_csv` ran, and the console output. -/
structure MainWriteOutcome where
  exitCode : Option Nat
  fileChars : List Char
  writeInvoked : Bool
  messages : List String
deriving DecidableEq, Repr

/-- Embedding of the write phase of `main` (src/file_timeliner.py lines
314-318): if the output file exists and `confirm_overwrite` refuses,
print the cancellation message and exit with status 1 leaving the file
untouched; otherwise call `write_to_csv`, which replaces the file's
content. -/
def main_write_phase (preContent : List Char) (output_exists : Bool)
    (answer : ConfirmAnswer) (output_path : String) (headers : List String)
    (file_metadata : List (List RecField)) : MainWriteOutcome :=
  if output_exists && !confirm_overwrite output_exists answer then
    { exitCode := some 1
      fileChars := preContent
      writeInvoked := false
      messages := ["Operation cancelled."] }
  else
    let w := write_to_csv output_path headers file_metadata
    { exitCode := none
      fileChars := w.fileChars
      writeInvoked := true
      messages := w.messages }

/-! ## Helper lemmas: the serializer and the reader are inverse -/

/-- Shape of the input that may legally follow one rendered field: the
end of the row data, a delimiter, or the row terminator. -/
def restOk (rest : List Char) : Prop :=
  rest = [] ∨ ∃ c t, rest = c :: t ∧ (c = '|' ∨ c = '\r')

theorem parseQuoted_round (f : List Char) (rest : List Char)
    (hr : rest.head? ≠ some '"') :
    parseQuoted (escapeQuotes f ++ '"' :: rest) = (f, rest) := by
  induction f with
  | nil =>
    cases rest with
    | nil => simp [escapeQuotes, parseQuoted]
    | cons c2 t =>
      have hc2 : c2 ≠ '"' := by
        intro h; exact hr (by simp [h])
      simp [escapeQuotes, parseQuoted, hc2]
  | cons c f ih =>
    by_cases hc : c = '"'
    · subst hc
      simp [escapeQuotes, parseQuoted, ih]
    · simp only [escapeQuotes, if_neg hc, List.cons_append]
      rw [parseQuoted.eq_def]
      simp [hc, ih]

theorem parseUnquoted_round (f : List Char) (rest : List Char)
    (hf : ∀ c ∈ f, ¬(c = '|' ∨ c = '\r')) (hr : restOk rest) :
    parseUnquoted (f ++ rest) = (f, rest) := by
  induction f with
  | nil =>
    rcases hr with h | ⟨c, t, rfl, hc⟩
    · simp [h, parseUnquoted]
    · simp [parseUnquoted, hc]
  | cons c f ih =>
    have hc := hf c (by simp)
    simp only [List.cons_append, parseUnquoted, if_neg hc]
    simp [ih (fun x hx => hf x (by simp [hx]))]

theorem noSpecial_of_not_needsQuote (f : List Char) (h : needsQuote f = false) :
    ∀ c ∈ f, c ≠ '|' ∧ c ≠ '"' ∧ c ≠ '\r' ∧ c ≠ '\n' := by
  intro c hc
  have := List.any_eq_false.mp h c hc
  simp only [Bool.or_eq_true, decide_eq_true_eq] at this
  push_neg at this
  exact ⟨this.1.1.1, this.1.1.2, this.1.2, this.2⟩

theorem parseField_round (f : List Char) (rest : List Char) (hr : restOk rest) :
    parseField (renderField f ++ rest) = (f, rest) := by
  by_cases hq : needsQuote f
  · have hr2 : rest.head? ≠ some '"' := by
      rcases hr with h | ⟨c, t, rfl, hc⟩
      · simp [h]
      · rcases hc with rfl | rfl <;> simp
    simp only [renderField, if_pos hq, List.cons_append, List.append_assoc]
    simp only [parseField, if_pos rfl]
    exact parseQuoted_round f rest hr2
  · have hs := noSpecial_of_not_needsQuote f (by simpa using hq)
    simp only [renderField, if_neg hq]
    cases f with
    | nil =>
      rcases hr with h | ⟨c, t, rfl, hc⟩
      · simp [h, parseField]
      · have : c ≠ '"' := by rcases hc with rfl | rfl <;> simp
        simp only [List.nil_append, parseField, if_neg this]
        simpa [parseUnquoted] using (by simp [parseUnquoted, hc] :
          parseUnquoted (c :: t) = ([], c :: t))
    | cons c f2 =>
      have hcq : c ≠ '"' := (hs c (by simp)).2.1
      simp only [List.cons_append, parseField, if_neg hcq]
      have : parseUnquoted ((c :: f2) ++ rest) = (c :: f2, rest) :=
        parseUnquoted_round (c :: f2) rest
          (fun x hx => by
            have := hs x hx
            rintro (rfl | rfl)
            · exact this.1 rfl
            · exact this.2.2.1 rfl) hr
      simpa using this

theorem renderRow_length_bound (r : List (List Char)) :
    r.length ≤ (renderRow r).length + 1 := by
  induction r with
  | nil => simp [renderRow]
  | cons f rt ih =>
    cases rt with
    | nil => simp [renderRow]
    | cons g t =>
      simp only [renderRow, List.length_append, List.length_cons] at *
      omega

theorem parseRecordF_round (r : List (List Char)) (rest : List Char) (fuel : Nat)
    (hne : r ≠ []) (hfuel : r.length ≤ fuel) :
    parseRecordF fuel (renderRow r ++ '\r' :: '\n' :: rest) = (r, rest) := by
  induction r generalizing fuel rest with
  | nil => exact absurd rfl hne
  | cons f rt ih =>
    cases fuel with
    | zero => simp at hfuel
    | succ fl =>
      cases rt with
      | nil =>
        have hpf : parseField (renderField f ++ '\r' :: '\n' :: rest) = (f, '\r' :: '\n' :: rest) :=
          parseField_round f _ (Or.inr ⟨'\r', '\n' :: rest, rfl, Or.inr rfl⟩)
        simp only [renderRow]
        rw [parseRecordF.eq_def]
        simp [hpf]
      | cons g t =>
        have hpf : parseField (renderField f ++ '|' :: (renderRow (g :: t) ++ '\r' :: '\n' :: rest))
            = (f, '|' :: (renderRow (g :: t) ++ '\r' :: '\n' :: rest)) :=
          parseField_round f _ (Or.inr ⟨'|', _, rfl, Or.inl rfl⟩)
        have hfl : (g :: t).length ≤ fl := by
          simp only [List.length_cons] at hfuel ⊢
          omega
        have hihr : parseRecordF fl (renderRow (g :: t) ++ '\r' :: '\n' :: rest) = (g :: t, rest) :=
          ih rest fl (by simp) hfl
        simp only [renderRow, List.append_assoc, List.cons_append]
        rw [parseRecordF.eq_def]
        simp only [List.append_assoc] at hpf
        simp [hpf, hihr]

theorem parseRecord_round (r : List (List Char)) (rest : List Char) (hne : r ≠ []) :
    parseRecord (renderRow r ++ '\r' :: '\n' :: rest) = (r, rest) := by
  apply parseRecordF_round r rest _ hne
  have h1 := renderRow_length_bound r
  simp only [List.length_append, List.length_cons]
  omega

theorem renderCsv_length_bound (rows : List (List (List Char))) :
    rows.length ≤ (renderCsv rows).length := by
  induction rows with
  | nil => simp [renderCsv]
  | cons r rt ih =>
    simp only [renderCsv, List.length_append, List.length_cons]
    omega

theorem parseCsvF_round (rows : List (List (List Char))) (fuel : Nat)
    (hne : ∀ r ∈ rows, r ≠ []) (hfuel : rows.length ≤ fuel) :
    parseCsvF fuel (renderCsv rows) = rows := by
  induction rows generalizing fuel with
  | nil =>
    cases fuel with
    | zero => simp [parseCsvF]
    | succ fl => simp [renderCsv, parseCsvF]
  | cons r rt ih =>
    cases fuel with
    | zero => simp at hfuel
    | succ fl =>
      have hinput : (renderRow r ++ '\r' :: '\n' :: renderCsv rt).isEmpty = false := by
        cases renderRow r <;> simp
      have hrec : parseRecord (renderRow r ++ '\r' :: '\n' :: renderCsv rt) = (r, renderCsv rt) :=
        parseRecord_round r (renderCsv rt) (hne r (by simp))
      simp only [renderCsv]
      rw [parseCsvF.eq_def]
      simp only [hinput, Bool.false_eq_true, if_false, hrec]
      simp only [List.length_cons] at hfuel
      exact congrArg (r :: ·) (ih fl (fun x hx => hne x (by simp [hx])) (by omega))

theorem parse_render (rows : List (List (List Char))) (hne : ∀ r ∈ rows, r ≠ []) :
    parseCsv (renderCsv rows) = rows := by
  apply parseCsvF_round rows _ hne
  have := renderCsv_length_bound rows
  omega

/-! ## Helper lemmas: stability of the key-based insertion sort -/

theorem filter_orderedInsert {α : Type} (key : α → String) (k : String) (a : α) (l : List α) :
    (List.orderedInsert (fun x y => key x ≤ key y) a l).filter (fun x => key x == k)
      = if key a == k then a :: l.filter (fun x => key x == k)
        else l.filter (fun x => key x == k) := by
  induction l with
  | nil =>
    cases h2 : key a == k with
    | true => simp [List.orderedInsert, List.filter, h2, beq_iff_eq.mp h2]
    | false => simp [List.orderedInsert, List.filter, h2, beq_eq_false_iff_ne.mp h2]
  | cons b l ih =>
    by_cases hab : key a ≤ key b
    · simp only [List.orderedInsert, if_pos hab]
      by_cases hak : key a == k
      · simp [List.filter, hak]
      · simp [List.filter, hak]
    · simp only [List.orderedInsert, if_neg hab]
      have hba : key b < key a := lt_of_not_le hab
      by_cases hak : key a == k
      · have hka : key a = k := by simpa using hak
        have hbk : (key b == k) = false := by
          simp only [beq_eq_false_iff_ne, ne_eq]
          intro h
          rw [← hka] at h
          exact absurd h (ne_of_lt hba)
        simp only [List.filter, hbk, ih, if_pos hak]
      · simp only [List.filter, ih, if_neg hak]

theorem filter_insertionSort {α : Type} (key : α → String) (k : String) (l : List α) :
    (List.insertionSort (fun x y => key x ≤ key y) l).filter (fun x => key x == k)
      = l.filter (fun x => key x == k) := by
  induction l with
  | nil => simp [List.insertionSort]
  | cons a l ih =>
    rw [List.insertionSort, filter_orderedInsert]
    by_cases hak : key a = k
    · rw [if_pos (by simpa using hak), ih]
      simp [List.filter_cons, hak]
    · rw [if_neg (by simpa using hak), ih]
      simp [List.filter_cons, hak]

theorem foldl_count {α : Type} (md : List α) (n : Nat) :
    md.foldl (fun c _ => c + 1) n = n + md.length := by
  induction md generalizing n with
  | nil => simp
  | cons a l ih =>
    simp [List.foldl, ih]
    omega

/-! ## Helper lemmas: traverser facts -/

theorem search_files_filter_commute (f : String) :
    ∀ (entries : List FSTree) (d : Option Int) (filt0 : Option String),
    search_files entries d (some f)
      = (search_files entries d none).filter (fun fn => fn.suffix == f) := by
  intro entries d filt0
  induction entries, d, filt0 using search_files.induct with
  | case1 entries d filt0 hstop =>
    rw [search_files.eq_def, search_files.eq_def]
    simp [hstop]
  | case2 d filt0 hstop =>
    rw [search_files.eq_def, search_files.eq_def]
    simp [hstop]
  | case3 d filt0 hstop fn es ih =>
    rw [search_files.eq_def]
    conv_rhs => rw [search_files.eq_def]
    simp only [hstop, Bool.false_eq_true, if_false]
    simp only [List.filter_append, ih, suffixMatches]
    by_cases hs : fn.suffix == f
    · simp [hs]
    · simp [hs]
  | case4 d filt0 hstop cs es ih1 ih2 =>
    rw [search_files.eq_def]
    conv_rhs => rw [search_files.eq_def]
    simp only [hstop, Bool.false_eq_true, if_false]
    simp [List.filter_append, ih1, ih2]
  | case5 d filt0 hstop es ih =>
    rw [search_files.eq_def]
    conv_rhs => rw [search_files.eq_def]
    simp [hstop, ih]

theorem isRecord_shape (m : List RecField) (h : isRecord m = true) :
    ∃ p n t1 t2 t3, m = [RecField.pathF p, RecField.sizeF n,
      RecField.timeF t1, RecField.timeF t2, RecField.timeF t3] := by
  unfold isRecord at h
  split at h
  · rename_i p n t1 t2 t3
    exact ⟨p, n, t1, t2, t3, rfl⟩
  · exact absurd h (by simp)

/-! ## Claim C1 -/

/-- Claim C1, refuted by evaluation: with `max_depth = 0` the traverser
does NOT restrict itself to direct children.  On the spec's own
scenario tree (`root/` holding `a.txt` and `sub/b.txt`), depth 0 yields
both files: the recursive call passes `0 - 1 = -1`, and `-1` is the
unlimited sentinel, so recursion continues without bound.  The claim
(and the spec's depth semantics and scenario) describe the evident
intent of a depth bound; the code's decrement collides with its own
sentinel.  -/
theorem c1_depth_zero_visits_subdirectory :
    search_files
      [FSTree.file ⟨"root/a.txt", ".txt", some ⟨500, none, 100, 200, 300⟩⟩,
       FSTree.dir [FSTree.file ⟨"root/sub/b.txt", ".txt", some ⟨10, none, 100, 200, 300⟩⟩]]
      (some 0) none
    = [⟨"root/a.txt", ".txt", some ⟨500, none, 100, 200, 300⟩⟩,
       ⟨"root/sub/b.txt", ".txt", some ⟨10, none, 100, 200, 300⟩⟩] := by
  simp [search_files, stopGuard, nextDepth, suffixMatches]

/-! ## Claim C2 -/

/-- Claim C2, refuted by evaluation: the collection phase of `main` maps
`get_stat` over the traverser's output in a plain list comprehension
and drops nothing, so the `[]` failure sentinel of a file whose `lstat`
fails appears in the collected sequence next to the well-formed record
of a readable file.  (Passing that sequence on, `sort_key` would raise
`IndexError` on the empty record, so the sentinel also aborts the run,
contrary to the containment the code's own error handling in `get_stat`
aims for.) -/
theorem c2_sentinel_reaches_collection :
    collect_metadata
      [FSTree.file ⟨"root/ok.txt", ".txt", some ⟨500, none, 100, 200, 300⟩⟩,
       FSTree.file ⟨"root/bad.txt", ".txt", none⟩]
      (some 1) none false
    = [[RecField.pathF "root/ok.txt", RecField.sizeF 500,
        RecField.timeF (TimeVal.raw 100), RecField.timeF (TimeVal.raw 200),
        RecField.timeF (TimeVal.raw 300)], []]
    ∧ [] ∈ collect_metadata
      [FSTree.file ⟨"root/ok.txt", ".txt", some ⟨500, none, 100, 200, 300⟩⟩,
       FSTree.file ⟨"root/bad.txt", ".txt", none⟩]
      (some 1) none false := by
  constructor
  · simp [collect_metadata, search_files, stopGuard, suffixMatches, get_stat, birthOrCtime]
  · simp [collect_metadata, search_files, stopGuard, suffixMatches, get_stat, birthOrCtime]

/-! ## Claim C3 -/

/-- Claim C3 as stated is false: `write_to_csv` is annotated `-> None`
and has no return statement, so its return value is `None`, not the
count of rows written (here it wrote one record row and still returned
`None`). -/
theorem c3_returns_none_not_count :
    (write_to_csv "file_timeline.csv" csvHeaders
        [[RecField.pathF "root/a.txt", RecField.sizeF 500,
          RecField.timeF (TimeVal.raw 100), RecField.timeF (TimeVal.raw 200),
          RecField.timeF (TimeVal.raw 300)]]).returned = none
    ∧ (write_to_csv "file_timeline.csv" csvHeaders
        [[RecField.pathF "root/a.txt", RecField.sizeF 500,
          RecField.timeF (TimeVal.raw 100), RecField.timeF (TimeVal.raw 200),
          RecField.timeF (TimeVal.raw 300)]]).counter = 1 := by
  exact ⟨rfl, rfl⟩

/-- Claim C3 amended: `write_to_csv` returns `None`; it counts the
record rows it writes in a local counter (one per element of the record
list, so the final count equals the list's length) and reports that
count itself in its console output, rather than returning it to the
caller. -/
theorem c3_counter_counts_rows (output_path : String) (headers : List String)
    (file_metadata : List (List RecField)) :
    (write_to_csv output_path headers file_metadata).returned = none
    ∧ (write_to_csv output_path headers file_metadata).counter = file_metadata.length
    ∧ ("  :gear: Metadata collected on " ++ toString file_metadata.length ++ " files.")
        ∈ (write_to_csv output_path headers file_metadata).messages := by
  refine ⟨rfl, ?_, ?_⟩
  · simpa using foldl_count file_metadata 0
  · simp only [write_to_csv, foldl_count, Nat.zero_add]
    exact List.mem_cons_self _ _

/-! ## Claim C4 -/

/-- Claim C4: writing any list of well-formed records with
`write_to_csv` and re-parsing the output on the pipe delimiter,
respecting quoting, yields exactly one header row followed by one data
row per record; the header row is exactly the five labels `Path`,
`Size`, `Created Time`, `Modified Time`, `Access Time` in that order,
and each data row is the record's five field values coerced to text. -/
theorem c4_roundtrip (output_path : String) (file_metadata : List (List RecField))
    (hwf : ∀ m ∈ file_metadata, isRecord m = true) :
    parseCsv (write_to_csv output_path csvHeaders file_metadata).fileChars
      = ["Path".data, "Size".data, "Created Time".data, "Modified Time".data,
         "Access Time".data] :: file_metadata.map recordRow
    ∧ (parseCsv (write_to_csv output_path csvHeaders file_metadata).fileChars).length
      = file_metadata.length + 1 := by
  have hfile : (write_to_csv output_path csvHeaders file_metadata).fileChars
      = renderCsv (csvHeaders.map String.data :: file_metadata.map recordRow) := rfl
  have hrows : ∀ r ∈ (csvHeaders.map String.data :: file_metadata.map recordRow), r ≠ [] := by
    intro r hr
    rcases List.mem_cons.mp hr with rfl | hr2
    · simp [csvHeaders]
    · obtain ⟨m, hm, rfl⟩ := List.mem_map.mp hr2
      obtain ⟨p, n, t1, t2, t3, rfl⟩ := isRecord_shape m (hwf m hm)
      simp [recordRow]
  have hparse := parse_render _ hrows
  rw [hfile, hparse]
  constructor
  · simp [csvHeaders]
  · simp

/-- Witness for C4 at a concrete input: two records, the first with a
path containing the delimiter (so its field is quoted on writing). -/
theorem c4_roundtrip_witness :
    (∀ m ∈ [[RecField.pathF "root/odd|name.txt", RecField.sizeF 7,
              RecField.timeF (TimeVal.formatted "2024-01-02 03:04:05"),
              RecField.timeF (TimeVal.formatted "2024-01-02 03:04:06"),
              RecField.timeF (TimeVal.formatted "2024-01-02 03:04:07")],
             [RecField.pathF "root/a.txt", RecField.sizeF 500,
              RecField.timeF (TimeVal.raw 100), RecField.timeF (TimeVal.raw 200),
              RecField.timeF (TimeVal.raw 300)]], isRecord m = true)
    ∧ (parseCsv (write_to_csv "file_timeline.csv" csvHeaders
          [[RecField.pathF "root/odd|name.txt", RecField.sizeF 7,
            RecField.timeF (TimeVal.formatted "2024-01-02 03:04:05"),
            RecField.timeF (TimeVal.formatted "2024-01-02 03:04:06"),
            RecField.timeF (TimeVal.formatted "2024-01-02 03:04:07")],
           [RecField.pathF "root/a.txt", RecField.sizeF 500,
            RecField.timeF (TimeVal.raw 100), RecField.timeF (TimeVal.raw 200),
            RecField.timeF (TimeVal.raw 300)]]).fileChars
        = ["Path".data, "Size".data, "Created Time".data, "Modified Time".data,
           "Access Time".data] ::
          [[RecField.pathF "root/odd|name.txt", RecField.sizeF 7,
            RecField.timeF (TimeVal.formatted "2024-01-02 03:04:05"),
            RecField.timeF (TimeVal.formatted "2024-01-02 03:04:06"),
            RecField.timeF (TimeVal.formatted "2024-01-02 03:04:07")],
           [RecField.pathF "root/a.txt", RecField.sizeF 500,
            RecField.timeF (TimeVal.raw 100), RecField.timeF (TimeVal.raw 200),
            RecField.timeF (TimeVal.raw 300)]].map recordRow
       ∧ (parseCsv (write_to_csv "file_timeline.csv" csvHeaders
          [[RecField.pathF "root/odd|name.txt", RecField.sizeF 7,
            RecField.timeF (TimeVal.formatted "2024-01-02 03:04:05"),
            RecField.timeF (TimeVal.formatted "2024-01-02 03:04:06"),
            RecField.timeF (TimeVal.formatted "2024-01-02 03:04:07")],
           [RecField.pathF "root/a.txt", RecField.sizeF 500,
            RecField.timeF (TimeVal.raw 100), RecField.timeF (TimeVal.raw 200),
            RecField.timeF (TimeVal.raw 300)]]).fileChars).length = 2 + 1) :=
  ⟨by decide, c4_roundtrip "file_timeline.csv" _ (by decide)⟩

/-! ## Claim C5 -/

/-- Claim C5: for well-formed records and any of the three field
selectors `main` can produce, `sort_key` always returns a string key:
a raw (float) epoch value is first converted to its `YYYY-MM-DD
HH:MM:SS` rendering, an already-formatted string value is used as-is.
The sort of `main` orders the records by that canonical key and is
stable: records with equal keys keep their relative pre-sort order
(stated as: filtering the sorted list down to any one key value gives
the same subsequence as filtering the input). -/
theorem c5_sort_canonical_and_stable (md : List (List RecField)) (sel label : String)
    (hwf : ∀ m ∈ md, isRecord m = true)
    (hsel : sort_argument_to_header sel = some label) :
    (∀ m ∈ md, sort_key m (headerIndex label) = some (KeyVal.str (keyString m (headerIndex label)))
       ∧ (∀ v, timeAt m (headerIndex label) = some (TimeVal.raw v) →
            keyString m (headerIndex label) = epochToString v)
       ∧ (∀ s, timeAt m (headerIndex label) = some (TimeVal.formatted s) →
            keyString m (headerIndex label) = s))
    ∧ List.Sorted (fun a b => keyString a (headerIndex label) ≤ keyString b (headerIndex label))
        (sort_records md (headerIndex label))
    ∧ (sort_records md (headerIndex label)).Perm md
    ∧ (∀ k : String, (sort_records md (headerIndex label)).filter
          (fun m => keyString m (headerIndex label) == k)
        = md.filter (fun m => keyString m (headerIndex label) == k)) := by
  have hidx : headerIndex label = 2 ∨ headerIndex label = 3 ∨ headerIndex label = 4 := by
    unfold sort_argument_to_header at hsel
    split_ifs at hsel with h1 h2 h3 <;>
      simp only [Option.some.injEq] at hsel <;>
      subst hsel <;> decide
  refine ⟨?_, ?_, ?_, ?_⟩
  · intro m hm
    obtain ⟨p, n, t1, t2, t3, rfl⟩ := isRecord_shape m (hwf m hm)
    rcases hidx with h | h | h <;> rw [h]
    · cases t1 <;> simp [sort_key, keyString, timeAt]
    · cases t2 <;> simp [sort_key, keyString, timeAt]
    · cases t3 <;> simp [sort_key, keyString, timeAt]
  · haveI : IsTotal (List RecField)
        (fun a b => keyString a (headerIndex label) ≤ keyString b (headerIndex label)) :=
      ⟨fun a b => le_total _ _⟩
    haveI : IsTrans (List RecField)
        (fun a b => keyString a (headerIndex label) ≤ keyString b (headerIndex label)) :=
      ⟨fun a b c h1 h2 => le_trans h1 h2⟩
    exact List.sorted_insertionSort _ md
  · exact List.perm_insertionSort _ md
  · intro k
    exact filter_insertionSort (fun m => keyString m (headerIndex label)) k md

/-- The record list used by C5's witness: two records whose access
times are equal (so stability is exercised) and one earlier record. -/
def c5md : List (List RecField) :=
  [[RecField.pathF "root/b.txt", RecField.sizeF 10, RecField.timeF (TimeVal.raw 100),
    RecField.timeF (TimeVal.raw 200), RecField.timeF (TimeVal.raw 900)],
   [RecField.pathF "root/c.txt", RecField.sizeF 20, RecField.timeF (TimeVal.raw 100),
    RecField.timeF (TimeVal.raw 200), RecField.timeF (TimeVal.raw 900)],
   [RecField.pathF "root/a.txt", RecField.sizeF 30, RecField.timeF (TimeVal.raw 100),
    RecField.timeF (TimeVal.raw 200), RecField.timeF (TimeVal.raw 5)]]

/-- Witness for C5 at a concrete input: the `atime` selector applied to
`c5md`. -/
theorem c5_sort_canonical_and_stable_witness :
    (∀ m ∈ c5md, isRecord m = true)
    ∧ sort_argument_to_header "atime" = some "Access Time"
    ∧ ((∀ m ∈ c5md, sort_key m (headerIndex "Access Time")
            = some (KeyVal.str (keyString m (headerIndex "Access Time")))
         ∧ (∀ v, timeAt m (headerIndex "Access Time") = some (TimeVal.raw v) →
              keyString m (headerIndex "Access Time") = epochToString v)
         ∧ (∀ s, timeAt m (headerIndex "Access Time") = some (TimeVal.formatted s) →
              keyString m (headerIndex "Access Time") = s))
      ∧ List.Sorted (fun a b => keyString a (headerIndex "Access Time")
            ≤ keyString b (headerIndex "Access Time"))
          (sort_records c5md (headerIndex "Access Time"))
      ∧ (sort_records c5md (headerIndex "Access Time")).Perm c5md
      ∧ (∀ k : String, (sort_records c5md (headerIndex "Access Time")).filter
            (fun m => keyString m (headerIndex "Access Time") == k)
          = c5md.filter (fun m => keyString m (headerIndex "Access Time") == k))) :=
  ⟨by decide, by decide,
   c5_sort_canonical_and_stable c5md "atime" "Access Time" (by decide) (by decide)⟩

/-! ## Claim C6 -/

/-- Claim C6: with a non-empty extension filter `f`, the traverser
yields exactly those files an unfiltered traversal would yield whose
suffix equals `f` (so the filter never yields a differently-suffixed
file, and never prunes recursion into directories — it only filters
files out of the unfiltered traversal); in particular every yielded
entry's suffix equals `f` exactly. -/
theorem c6_extension_filter (entries : List FSTree) (d : Option Int) (f : String)
    (hf : f ≠ "") :
    search_files entries d (some f)
      = (search_files entries d none).filter (fun fn => fn.suffix == f)
    ∧ ∀ fn ∈ search_files entries d (some f), fn.suffix = f := by
  have hc := search_files_filter_commute f entries d none
  refine ⟨hc, ?_⟩
  intro fn hfn
  rw [hc] at hfn
  have := (List.mem_filter.mp hfn).2
  simpa using this

/-- Witness for C6 at a concrete input: a tree holding a `.txt` file, a
`.log` file, and a subdirectory with one more of each, filtered on
`.txt`. -/
theorem c6_extension_filter_witness :
    (".txt" : String) ≠ ""
    ∧ (search_files
        [FSTree.file ⟨"root/a.txt", ".txt", some ⟨500, none, 100, 200, 300⟩⟩,
         FSTree.file ⟨"root/n.log", ".log", some ⟨1, none, 100, 200, 300⟩⟩,
         FSTree.dir [FSTree.file ⟨"root/sub/b.txt", ".txt", some ⟨10, none, 100, 200, 300⟩⟩,
                     FSTree.file ⟨"root/sub/m.log", ".log", some ⟨2, none, 100, 200, 300⟩⟩]]
        (some (-1)) (some ".txt")
      = (search_files
        [FSTree.file ⟨"root/a.txt", ".txt", some ⟨500, none, 100, 200, 300⟩⟩,
         FSTree.file ⟨"root/n.log", ".log", some ⟨1, none, 100, 200, 300⟩⟩,
         FSTree.dir [FSTree.file ⟨"root/sub/b.txt", ".txt", some ⟨10, none, 100, 200, 300⟩⟩,
                     FSTree.file ⟨"root/sub/m.log", ".log", some ⟨2, none, 100, 200, 300⟩⟩]]
        (some (-1)) none).filter (fun fn => fn.suffix == ".txt")
      ∧ ∀ fn ∈ search_files
        [FSTree.file ⟨"root/a.txt", ".txt", some ⟨500, none, 100, 200, 300⟩⟩,
         FSTree.file ⟨"root/n.log", ".log", some ⟨1, none, 100, 200, 300⟩⟩,
         FSTree.dir [FSTree.file ⟨"root/sub/b.txt", ".txt", some ⟨10, none, 100, 200, 300⟩⟩,
                     FSTree.file ⟨"root/sub/m.log", ".log", some ⟨2, none, 100, 200, 300⟩⟩]]
        (some (-1)) (some ".txt"), fn.suffix = ".txt") :=
  ⟨by decide, c6_extension_filter _ (some (-1)) ".txt" (by decide)⟩

/-! ## Claim C7 -/

/-- Claim C7: when the output file already exists and the user declines
the overwrite prompt, the write phase of `main` exits with status 1,
the output file's content is exactly what it was before, and
`write_to_csv` is never invoked. -/
theorem c7_decline_leaves_file_untouched (preContent : List Char) (output_path : String)
    (file_metadata : List (List RecField)) (answer : ConfirmAnswer)
    (hans : answer = ConfirmAnswer.no) :
    (main_write_phase preContent true answer output_path csvHeaders file_metadata).exitCode
      = some 1
    ∧ (main_write_phase preContent true answer output_path csvHeaders file_metadata).fileChars
      = preContent
    ∧ (main_write_phase preContent true answer output_path csvHeaders file_metadata).writeInvoked
      = false := by
  subst hans
  exact ⟨rfl, rfl, rfl⟩

/-- Witness for C7 at a concrete input. -/
theorem c7_decline_leaves_file_untouched_witness :
    (ConfirmAnswer.no = ConfirmAnswer.no)
    ∧ ((main_write_phase "old content".data true ConfirmAnswer.no "file_timeline.csv"
          csvHeaders []).exitCode = some 1
      ∧ (main_write_phase "old content".data true ConfirmAnswer.no "file_timeline.csv"
          csvHeaders []).fileChars = "old content".data
      ∧ (main_write_phase "old content".data true ConfirmAnswer.no "file_timeline.csv"
          csvHeaders []).writeInvoked = false) :=
  ⟨rfl, c7_decline_leaves_file_untouched "old content".data "file_timeline.csv" []
    ConfirmAnswer.no rfl⟩

/-! ## Claim C8 -/

/-- Claim C8: whenever reading an entry's metadata fails (modelled by
`stat = none`, covering the `except Exception` arm of the source),
`get_stat` neither raises past its boundary (it is a total function of
the failure case) nor returns a partial record: it logs the failure
together with the offending path and returns the empty-list failure
sentinel. -/
theorem c8_get_stat_failure_logs_and_returns_sentinel (fn : FileNode) (hr : Bool)
    (h : fn.stat = none) :
    (get_stat fn hr).record = []
    ∧ (get_stat fn hr).logMessages
      = ["Error getting stat information from " ++ fn.path] := by
  simp [get_stat, h]

/-- Witness for C8 at a concrete input. -/
theorem c8_get_stat_failure_witness :
    ((⟨"root/gone.txt", ".txt", none⟩ : FileNode).stat = none)
    ∧ ((get_stat ⟨"root/gone.txt", ".txt", none⟩ true).record = []
      ∧ (get_stat ⟨"root/gone.txt", ".txt", none⟩ true).logMessages
        = ["Error getting stat information from " ++ "root/gone.txt"]) :=
  ⟨rfl, c8_get_stat_failure_logs_and_returns_sentinel ⟨"root/gone.txt", ".txt", none⟩ true rfl⟩

/-! ## Claim C9 -/

/-- Claim C9: every record a successful `get_stat` produces carries a
single timestamp representation decided solely by the run-wide
`human_readable` flag.  When the flag is set all three timestamps are
the formatted `YYYY-MM-DD HH:MM:SS` UTC strings of the stat values
(creation falling back to change time); when it is unset all three are
the raw epoch values.  The exact record equations rule out any mixing
inside one record. -/
theorem c9_uniform_timestamp_representation (fn : FileNode) (st : StatData)
    (human_readable : Bool) (h : fn.stat = some st) :
    (human_readable = true → (get_stat fn human_readable).record
      = [RecField.pathF fn.path, RecField.sizeF st.st_size,
         RecField.timeF (TimeVal.formatted (epochToString (birthOrCtime st))),
         RecField.timeF (TimeVal.formatted (epochToString st.st_mtime)),
         RecField.timeF (TimeVal.formatted (epochToString st.st_atime))])
    ∧ (human_readable = false → (get_stat fn human_readable).record
      = [RecField.pathF fn.path, RecField.sizeF st.st_size,
         RecField.timeF (TimeVal.raw (birthOrCtime st)),
         RecField.timeF (TimeVal.raw st.st_mtime),
         RecField.timeF (TimeVal.raw st.st_atime)]) := by
  constructor <;> rintro rfl <;> simp [get_stat, h]

/-- Witness for C9 at a concrete input, with the flag set. -/
theorem c9_uniform_timestamp_representation_witness :
    ((⟨"root/a.txt", ".txt", some ⟨500, none, 100, 200, 300⟩⟩ : FileNode).stat
        = some ⟨500, none, 100, 200, 300⟩)
    ∧ ((true = true → (get_stat ⟨"root/a.txt", ".txt", some ⟨500, none, 100, 200, 300⟩⟩
          true).record
        = [RecField.pathF "root/a.txt", RecField.sizeF 500,
           RecField.timeF (TimeVal.formatted (epochToString (birthOrCtime ⟨500, none, 100, 200, 300⟩))),
           RecField.timeF (TimeVal.formatted (epochToString 200)),
           RecField.timeF (TimeVal.formatted (epochToString 300))])
      ∧ (true = false → (get_stat ⟨"root/a.txt", ".txt", some ⟨500, none, 100, 200, 300⟩⟩
          true).record
        = [RecField.pathF "root/a.txt", RecField.sizeF 500,
           RecField.timeF (TimeVal.raw (birthOrCtime ⟨500, none, 100, 200, 300⟩)),
           RecField.timeF (TimeVal.raw 200),
           RecField.timeF (TimeVal.raw 300)])) :=
  ⟨rfl, c9_uniform_timestamp_representation ⟨"root/a.txt", ".txt", some ⟨500, none, 100, 200, 300⟩⟩
    ⟨500, none, 100, 200, 300⟩ true rfl⟩

/-! ## Claim C10 -/

/-- Claim C10: any `max_depth` strictly below `-1` trips the guard of
`search_files` immediately, so the traversal yields nothing for every
directory listing and every filter — even though `-1` itself means
unlimited depth. -/
theorem c10_depth_below_minus_one_yields_nothing (entries : List FSTree)
    (filt : Option String) (d : Int) (hd : d < -1) :
    search_files entries (some d) filt = [] := by
  have hg : stopGuard (some d) = true := by
    simp only [stopGuard, Bool.and_eq_true, decide_eq_true_eq, bne_iff_ne, ne_eq]
    constructor
    · omega
    · omega
  rw [search_files.eq_def]
  simp [hg]

/-- Witness for C10 at a concrete input: depth `-2` on a tree that an
unlimited traversal would fully enumerate. -/
theorem c10_depth_below_minus_one_witness :
    ((-2 : Int) < -1)
    ∧ search_files
        [FSTree.file ⟨"root/a.txt", ".txt", some ⟨500, none, 100, 200, 300⟩⟩,
         FSTree.dir [FSTree.file ⟨"root/sub/b.txt", ".txt", some ⟨10, none, 100, 200, 300⟩⟩]]
        (some (-2)) none = [] :=
  ⟨by decide, c10_depth_below_minus_one_yields_nothing _ none (-2) (by decide)⟩
